import Mathlib

/-!
Shallow embedding of the Nova conversational-memory subsystem
(`pc_avatar/context_store.py`, `pc_avatar/main.py`,
`pc_avatar/logs/json_to_obsidian.py`) and proofs about its spec claims.

Strings are modelled as Lean `String`/`List Char`.  Python's `str.strip`,
`str.lower`, `str.replace`, regex substitutions and `in` (substring) are
translated character-by-character below (ASCII case table; whitespace set
is the six ASCII whitespace characters Python's `\s` matches).  Library
functions whose exact values are irrelevant to the claims (SHA-1 hex
digests, `unicodedata.normalize`, `datetime.fromisoformat`) are passed in
as pure function parameters, since the code only pipes their outputs.
-/

/-- Python whitespace test: space, tab, newline, carriage return,
vertical tab, form feed (the class `\s` over ASCII). -/
def pyIsSpace (c : Char) : Bool :=
  c.toNat = 32 || c.toNat = 9 || c.toNat = 10 || c.toNat = 13 || c.toNat = 11 || c.toNat = 12

/-- Python `str.lower` on one character (ASCII case table). -/
def pyToLower (c : Char) : Char :=
  if 65 ≤ c.toNat ∧ c.toNat ≤ 90 then Char.ofNat (c.toNat + 32) else c

/-- Python `str.upper` on one character (ASCII case table). -/
def pyToUpper (c : Char) : Char :=
  if 97 ≤ c.toNat ∧ c.toNat ≤ 122 then Char.ofNat (c.toNat - 32) else c

/-- Python `str.lower`. -/
def pyLower (s : String) : String := String.mk (s.data.map pyToLower)

/-- Strip characters satisfying `p` from both ends of a character list
(Python `str.strip(chars)` semantics). -/
def pyStripBy (p : Char → Bool) (s : List Char) : List Char :=
  List.rdropWhile p (s.dropWhile p)

/-- Python `str.strip()` (no argument: strips whitespace). -/
def pyStripStr (s : String) : String := String.mk (pyStripBy pyIsSpace s.data)

/-- Python slice `l[-n:]`. -/
def pyTakeLast (n : Nat) (l : List α) : List α := l.drop (l.length - n)

/-- Python string truthiness combinator: `a or b` on strings. -/
def pyOrStr (a b : String) : String := if a ≠ "" then a else b

/-- Fuelled body of Python `str.replace`: replaces non-overlapping,
leftmost-first occurrences of `pat`.  The fuel (initialised to the
subject length, which bounds the number of steps) only makes the
recursion structural; it is never exhausted. -/
def replaceFuel (pat rep : List Char) : Nat → List Char → List Char
  | _, [] => []
  | 0, l => l
  | fuel + 1, c :: cs =>
    if pat ≠ [] ∧ pat.isPrefixOf (c :: cs) then
      rep ++ replaceFuel pat rep fuel ((c :: cs).drop pat.length)
    else
      c :: replaceFuel pat rep fuel cs

/-- Python `str.replace` (non-empty pattern; all call sites in the
source use non-empty patterns). -/
def pyReplace (s pat rep : String) : String :=
  String.mk (replaceFuel pat.data rep.data s.data.length s.data)

/-- Body of `collapseRuns`; the flag records whether the previous
character belonged to a run being collapsed. -/
def collapseRunsGo (p : Char → Bool) (r : Char) : List Char → Bool → List Char
  | [], _ => []
  | c :: cs, inRun =>
    if p c then
      (if inRun then [] else [r]) ++ collapseRunsGo p r cs true
    else
      c :: collapseRunsGo p r cs false

/-- Replace every maximal run of characters satisfying `p` by the single
character `r` (the shape of `re.sub(r"[class]+", "r", s)`). -/
def collapseRuns (p : Char → Bool) (r : Char) (l : List Char) : List Char :=
  collapseRunsGo p r l false

/-- Body of `runsBy`; the accumulator holds the reversed current run. -/
def runsByGo (p : Char → Bool) : List Char → List Char → List (List Char)
  | [], acc => if acc.isEmpty then [] else [acc.reverse]
  | c :: cs, acc =>
    if p c then runsByGo p cs (c :: acc)
    else if acc.isEmpty then runsByGo p cs [] else acc.reverse :: runsByGo p cs []

/-- Maximal runs of characters satisfying `p` (the matches of
`re.findall(r"[class]+", s)` before any length constraint). -/
def runsBy (p : Char → Bool) (l : List Char) : List (List Char) :=
  runsByGo p l []

/-- Python substring containment `needle in hay`. -/
def pyInStr (needle hay : String) : Bool := decide (needle.data <:+: hay.data)

/-- Python `str.split()` with no argument: whitespace-run separated words. -/
def splitWsWords (s : String) : List String :=
  (runsBy (fun c => !pyIsSpace c) s.data).map String.mk

/-- Python `str.startswith`. -/
def pyStartsWith (s pre : String) : Bool := pre.data.isPrefixOf s.data

/-- Python `str.endswith`. -/
def pyEndsWith (s suf : String) : Bool := suf.data.isSuffixOf s.data

/-- Body of `pySplitLines`. -/
def splitLinesGo : List Char → List Char → List String
  | [], acc => [String.mk acc.reverse]
  | c :: cs, acc =>
    if c = '\n' then String.mk acc.reverse :: splitLinesGo cs []
    else splitLinesGo cs (c :: acc)

/-- Split on `"\n"` (Python `str.splitlines` recognises further
separators and drops a final empty piece, but every caller in the source
skips blank pieces, so the difference is unobservable there). -/
def pySplitLines (s : String) : List String := splitLinesGo s.data []

/-- Python `sep.join(items)`. -/
def joinSep (sep : String) : List String → String
  | [] => ""
  | [x] => x
  | x :: rest => x ++ sep ++ joinSep sep rest

/-- Concatenation of a list of strings. -/
def strJoin (l : List String) : String := joinSep "" l

/-- ASCII apostrophe as a one-character string. -/
def aposS : String := String.singleton (Char.ofNat 39)

/-! ## JSON values (the shapes `json.loads` can produce) -/

/-- Parsed JSON data, as produced by `json.loads`.  Numbers are modelled
as integers (every number the program itself writes is omitted or a
string; floats never arise in the claims). -/
inductive JValue where
  | str (s : String)
  | num (n : Int)
  | bool (b : Bool)
  | null
  | arr (items : List JValue)
  | obj (fields : List (String × JValue))

/-- Lookup in a JSON object's field list (Python `dict.get`; parsed JSON
objects have unique keys, first match returned). -/
def lookupField : List (String × JValue) → String → Option JValue
  | [], _ => none
  | (k, v) :: rest, key => if k = key then some v else lookupField rest key

/-- Python `payload.get(key)` guarded by `isinstance(payload, dict)`:
`none` for non-objects and missing keys. -/
def jGet : JValue → String → Option JValue
  | JValue.obj fields, key => lookupField fields key
  | _, _ => none

/-- Python truthiness of a JSON value. -/
def jTruthy : JValue → Bool
  | JValue.str s => s ≠ ""
  | JValue.num n => n ≠ 0
  | JValue.bool b => b
  | JValue.null => false
  | JValue.arr items => !items.isEmpty
  | JValue.obj fields => !fields.isEmpty

mutual

/-- Python `repr` of a JSON value (element rendering used by `str` on
lists and dicts; quote escaping inside strings is not modelled, no claim
evaluates it). -/
def pyReprJ : JValue → String
  | JValue.str s => aposS ++ s ++ aposS
  | JValue.num n => toString n
  | JValue.bool b => if b then "True" else "False"
  | JValue.null => "None"
  | JValue.arr items =>
      "[" ++ joinSep ", " (pyReprListJ items) ++ "]"
  | JValue.obj fields =>
      "\x7b" ++ joinSep ", " (pyReprFieldsJ fields) ++ "\x7d"

def pyReprListJ : List JValue → List String
  | [] => []
  | v :: rest => pyReprJ v :: pyReprListJ rest

def pyReprFieldsJ : List (String × JValue) → List String
  | [] => []
  | (k, v) :: rest => (aposS ++ k ++ aposS ++ ": " ++ pyReprJ v) :: pyReprFieldsJ rest

end

/-- Python `str` of a JSON value. -/
def pyStrJ : JValue → String
  | JValue.str s => s
  | v => pyReprJ v

/-- Python chain `a or default` over an optional JSON value (used for
`payload.get("text") or payload.get("content") or ""`). -/
def jOr (a : Option JValue) (b : JValue) : JValue :=
  match a with
  | some v => if jTruthy v then v else b
  | none => b

/-! ## context_store.py -/

/-- Rolling-context entry as persisted: `{"role": role, "content": content}`. -/
structure Msg where
  role : String
  content : String
deriving DecidableEq, Repr

/-- `MAX_MESSAGES` from `context_store.py`. -/
def MAX_MESSAGES : Nat := 40

/-- `DEFAULT_SEGMENT` from `context_store.py`. -/
def DEFAULT_SEGMENT : String := "general"

/-- Characters the slug keeps: the class `[a-z0-9_-]` of `_SEGMENT_SLUG_RE`'s
complement. -/
def isSlugChar (c : Char) : Bool :=
  (97 ≤ c.toNat && c.toNat ≤ 122) || (48 ≤ c.toNat && c.toNat ≤ 57) ||
    c.toNat = 95 || c.toNat = 45

/-- The successive transformations of `_segment_slug` before the
`or "default"` fallback: `segment.strip().lower()`, `replace(" ", "-")`,
`_SEGMENT_SLUG_RE.sub("-", ...)`, `strip("-_")`. -/
def slugCore (s : List Char) : List Char :=
  pyStripBy (fun c => c = '-' || c = '_')
    (collapseRuns (fun c => !isSlugChar c) '-'
      (((pyStripBy pyIsSpace s).map pyToLower).map (fun c => if c = ' ' then '-' else c)))

/-- `_segment_slug` from `context_store.py`: strip, lowercase, spaces to
hyphens, collapse runs of disallowed characters to one hyphen, strip
leading/trailing `-`/`_`, with fallback `"default"`. -/
def segment_slug (segment : String) : String :=
  if (slugCore segment.data).isEmpty then "default" else String.mk (slugCore segment.data)

/-- The character set of `lstrip("-*0123456789. \t")` in `_extract_facts`. -/
def factsLstripChar (c : Char) : Bool :=
  c = '-' || c = '*' || (48 ≤ c.toNat && c.toNat ≤ 57) || c = '.' || c = ' ' || c = '\t'

/-- Loop body of `_extract_facts`: walk lines keeping the first-seen
(case-insensitively deduplicated) non-blank facts after marker stripping. -/
def extractFactsGo : List String → List String → List String
  | [], _ => []
  | line :: rest, seen =>
    let t1 := pyStripBy pyIsSpace line.data
    if t1 = [] then extractFactsGo rest seen
    else
      let t2 := pyStripBy pyIsSpace (t1.dropWhile factsLstripChar)
      if t2 = [] then extractFactsGo rest seen
      else
        let key := String.mk (t2.map pyToLower)
        if seen.contains key then extractFactsGo rest seen
        else String.mk t2 :: extractFactsGo rest (key :: seen)

/-- `_extract_facts` from `context_store.py`.  Lines are split on `"\n"`;
Python `splitlines` also recognises other separators and omits a final
empty piece, but blank pieces are skipped by the loop either way. -/
def extract_facts (summary : String) : List String :=
  extractFactsGo (pySplitLines summary) []

/-- `_sanitize` from `context_store.py`, applied to parsed JSON entries
(the `load_context` call site): keep only dict entries with role
`"user"`/`"assistant"` and a string content that is non-blank after
strip; content is stored stripped. -/
def sanitize_entries (entries : List JValue) : List Msg :=
  entries.filterMap fun entry =>
    match entry with
    | JValue.obj _ =>
      match jGet entry "role", jGet entry "content" with
      | some (JValue.str role), some (JValue.str content) =>
        if (role = "user" ∨ role = "assistant") ∧ pyStripStr content ≠ "" then
          some ⟨role, pyStripStr content⟩
        else none
      | _, _ => none
    | _ => none

/-- `_sanitize` applied to in-memory `{"role", "content"}` dicts (the
`save_context` call site, where both fields are strings). -/
def sanitize_messages (msgs : List Msg) : List Msg :=
  msgs.filterMap fun m =>
    if (m.role = "user" ∨ m.role = "assistant") ∧ pyStripStr m.content ≠ "" then
      some ⟨m.role, pyStripStr m.content⟩
    else none

/-- `save_context` from `context_store.py`, modelled as the list of
entries the written JSON array holds (an I/O failure loses the write but
is invisible to every claim). -/
def save_context (messages : List Msg) : List Msg :=
  pyTakeLast MAX_MESSAGES (sanitize_messages messages)

/-- One persisted file as `load_context` can encounter it: absent;
unreadable (`OSError` while opening or reading); undecodable (the file
exists and is readable but its bytes are not valid UTF-8, so
`read_text(encoding="utf-8")` raises `UnicodeDecodeError`); not JSON
(`json.JSONDecodeError`); or parsed JSON. -/
inductive FileState where
  | missing
  | unreadable
  | undecodable
  | invalidJson
  | json (v : JValue)

/-- Outcome of a `load_context` call.  `raised` models the uncaught
exception path: `except (OSError, json.JSONDecodeError)` at the read
site does not catch `UnicodeDecodeError` (a `ValueError`), so it
escapes to the caller.  `returned` carries the loaded list together
with the contents the legacy-migration `save_context` call writes to
the default path (`none` when no write happens). -/
inductive LoadOutcome where
  | raised
  | returned (result : List Msg) (migrated : Option (List Msg))
deriving DecidableEq, Repr

/-- `load_context` from `context_store.py` over the default-path file
and the legacy `context.json` file.  An undecodable candidate file
(existing, readable, not valid UTF-8) raises out of the function; an
`OSError` or `JSONDecodeError` is caught and ends in the empty result;
the legacy file is consulted only when the default path does not exist. -/
def load_context (defaultFile legacyFile : FileState) : LoadOutcome :=
  match defaultFile with
  | FileState.missing =>
    match legacyFile with
    | FileState.missing => LoadOutcome.returned [] none
    | FileState.unreadable => LoadOutcome.returned [] none
    | FileState.undecodable => LoadOutcome.raised
    | FileState.invalidJson => LoadOutcome.returned [] none
    | FileState.json v =>
      match v with
      | JValue.arr xs =>
        let cleaned := pyTakeLast MAX_MESSAGES (sanitize_entries xs)
        LoadOutcome.returned cleaned
          (if cleaned ≠ [] then some (save_context cleaned) else none)
      | _ => LoadOutcome.returned [] none
  | FileState.unreadable => LoadOutcome.returned [] none
  | FileState.undecodable => LoadOutcome.raised
  | FileState.invalidJson => LoadOutcome.returned [] none
  | FileState.json v =>
    match v with
    | JValue.arr xs =>
      LoadOutcome.returned (pyTakeLast MAX_MESSAGES (sanitize_entries xs)) none
    | _ => LoadOutcome.returned [] none

/-- In-memory effect of `append_message` from `context_store.py`: the
history list gains `{"role": role, "content": content.strip()}`. -/
def append_message (history : List Msg) (role content : String) : List Msg :=
  history ++ [⟨role, pyStripStr content⟩]

/-- Fold a turn sequence through `append_message` starting from an empty
history. -/
def appendAll (turns : List (String × String)) : List Msg :=
  turns.foldl (fun h t => append_message h t.1 t.2) []

/-- `record_raw`'s digest input `f"{role}:{ts_iso}:{content}"`. -/
def digest_input (role tsIso content : String) : String :=
  role ++ ":" ++ tsIso ++ ":" ++ content

/-- `record_raw`'s archive filename
`f"{ts_compact}_{role}_{digest}.json"`, with the truncated SHA-1 hex
digest supplied as a pure function parameter. -/
def record_raw_filename (sha1hex8 : String → String)
    (tsCompact role tsIso content : String) : String :=
  tsCompact ++ "_" ++ role ++ "_" ++ sha1hex8 (digest_input role tsIso content) ++ ".json"

/-- The summary artifact `SegmentStore.update_summary` writes (its
`updated` wall-clock field is filled at write time and carried by no
claim). -/
structure SummaryRecord where
  segment : String
  slug : String
  summary : String
  facts : List String
deriving DecidableEq, Repr

/-- `SegmentStore.update_summary`: no-op (`none`) on blank summary,
otherwise the written summary payload. -/
def update_summary (segment summary : String) (facts : List String) : Option SummaryRecord :=
  if pyStripStr summary = "" then none
  else some ⟨segment, segment_slug segment, pyStripStr summary, facts⟩

/-- `update_segment_summary` from `context_store.py` with `facts=None`:
facts are derived by `_extract_facts`. -/
def update_segment_summary (segment summary : String) : Option SummaryRecord :=
  update_summary segment summary (extract_facts summary)

/-! ## main.py -/

/-- `SEGMENT_RULES` from `main.py` (rule order is part of the contract;
the keyword sets are written out in source order). -/
def SEGMENT_RULES : List (String × List String) :=
  [("session-control", ["bye", "bye nova", "stop", "stop nova", "goodbye", "see you", "later nova"]),
   ("tasks", ["todo", "task", "remind", "schedule", "deadline", "plan"]),
   ("work", ["project", "code", "bug", "deploy", "meeting", "client"]),
   ("personal", ["family", "friend", "birthday", "relationship", "vacation", "hobby"]),
   ("wellness", ["health", "doctor", "exercise", "sleep", "diet", "meditation"]),
   ("finance", ["budget", "money", "invoice", "bill", "pay", "expense"])]

/-- `AppController._infer_segment` from `main.py`: first rule whose
keyword set intersects the lowercased text wins; otherwise the reserved
screen-context segment when visual context was attached by a user turn;
otherwise the default segment. -/
def infer_segment (role content : String) (includeScreen : Bool) : String :=
  let text := pyLower content
  match SEGMENT_RULES.find? (fun rule => rule.2.any (fun kw => pyInStr kw text)) with
  | some rule => rule.1
  | none => if includeScreen && role = "user" then "screen-context" else DEFAULT_SEGMENT

/-- Observable outcome of `AppController._summarize_and_trim`: the new
in-memory conversation, the summary written to the segment store (if
any), and the rolling snapshot persisted by `save_context`. -/
structure CompactResult where
  conversation : List Msg
  summaryWritten : Option SummaryRecord
  savedSnapshot : List Msg
deriving DecidableEq, Repr

/-- `AppController._summarize_and_trim` from `main.py`.  The summarizer
oracle is a parameter; `none` models an unavailable summarizer,
`some ""` an empty digest (both are falsy in `if summary:`). -/
def summarize_and_trim (summarizer : List Msg → Option String)
    (conversation : List Msg) (assistantReply lastSegment : String) : CompactResult :=
  let conv1 := append_message conversation "assistant" assistantReply
  match summarizer conv1 with
  | some summary =>
    if summary ≠ "" then
      { conversation := [⟨"assistant", summary⟩]
        summaryWritten := update_segment_summary (pyOrStr lastSegment DEFAULT_SEGMENT) summary
        savedSnapshot := save_context [⟨"assistant", summary⟩] }
    else
      { conversation := pyTakeLast 4 conv1
        summaryWritten := none
        savedSnapshot := save_context (pyTakeLast 4 conv1) }
  | none =>
    { conversation := pyTakeLast 4 conv1
      summaryWritten := none
      savedSnapshot := save_context (pyTakeLast 4 conv1) }

/-! ## logs/json_to_obsidian.py -/

/-- Wall-clock-free rendering of an aware local-zone datetime truncated
to seconds: exactly the three strings `parse_timestamp` derives from it
(`isoformat`, `date().isoformat()`, `strftime("%H:%M")`). -/
structure Dt where
  iso : String
  date : String
  time : String
deriving DecidableEq, Repr

/-- Pure stand-ins for the library functions the exporter pipes data
through: `unicodedata.normalize("NFKD", ·)`, `hashlib.sha1(·).hexdigest()`
(truncations are applied at call sites), and `datetime.fromisoformat`
composed with the local-zone/second-truncation normalisation of
`parse_timestamp` (`None` models `ValueError`). -/
structure ExportEnv where
  nfkd : String → String
  sha1hex : String → String
  parseIso : String → Option Dt

/-- `parse_timestamp` from `json_to_obsidian.py`: falsy or unparsable
timestamps fall back to the current time `now`.  The `str(...)`
coercion applied by both call sites is folded in via `pyStrJ`. -/
def parse_timestamp (env : ExportEnv) (now : Dt) (value : Option JValue) : Dt :=
  match value with
  | some v =>
    if jTruthy v then
      match env.parseIso (pyReplace (pyStrJ v) "Z" "+00:00") with
      | some dt => dt
      | none => now
    else now
  | none => now

/-- `STOP_WORDS` from `json_to_obsidian.py`, in source order (the
duplicated entries of the Python set literal collapse on membership). -/
def STOP_WORDS : List String :=
  ["the", "and", "that", "with", "from", "this", "they", "have", "what", "whats",
   "lets", "lets", "your", "about", "into", "there", "some", "like", "just",
   "you" ++ aposS ++ "re", "youre", "going", "over", "here", "want", "need",
   "really", "sure", "okay", "cant", "can" ++ aposS ++ "t", "were",
   "we" ++ aposS ++ "re", "back", "left", "right", "still", "look", "looks",
   "it" ++ aposS ++ "s", "its", "song", "there" ++ aposS ++ "s", "theres",
   "maybe", "going", "gonna", "really", "thing"]

/-- `SNIPPET_LIMIT` from `json_to_obsidian.py`. -/
def SNIPPET_LIMIT : Nat := 68

/-- Characters matched by the tokenizer class `[A-Za-z0-9']`. -/
def isTokenChar (c : Char) : Bool :=
  (97 ≤ c.toNat && c.toNat ≤ 122) || (65 ≤ c.toNat && c.toNat ≤ 90) ||
    (48 ≤ c.toNat && c.toNat ≤ 57) || c.toNat = 39

/-- Characters kept by `re.sub(r"[^a-z0-9]", "", token_clean)`. -/
def isLowerAlnum (c : Char) : Bool :=
  (97 ≤ c.toNat && c.toNat ≤ 122) || (48 ≤ c.toNat && c.toNat ≤ 57)

/-- Loop body of `extract_keywords`: apostrophe removal, stop-word check,
normalisation, length/dedup filters, cap with early exit. -/
def keywordsGo (limit : Nat) : List (List Char) → List String → List String → List String
  | [], _, acc => acc.reverse
  | tok :: rest, seen, acc =>
    let tokenClean := tok.filter (fun c => c.toNat ≠ 39)
    if STOP_WORDS.contains (String.mk tokenClean) then keywordsGo limit rest seen acc
    else
      let normalized := tokenClean.filter isLowerAlnum
      if normalized.length ≤ 3 then keywordsGo limit rest seen acc
      else if seen.contains (String.mk normalized) then keywordsGo limit rest seen acc
      else
        let acc2 := String.mk normalized :: acc
        if limit ≤ acc2.length then acc2.reverse
        else keywordsGo limit rest (String.mk normalized :: seen) acc2

/-- `extract_keywords` from `json_to_obsidian.py`.  `re.findall`'s
greedy `[A-Za-z0-9']{3,}` yields exactly the maximal token-character
runs of length at least 3. -/
def extract_keywords (text : String) (limit : Nat := 5) : List String :=
  keywordsGo limit
    ((runsBy isTokenChar (pyLower text).data).filter (fun run => 3 ≤ run.length)) [] []

/-- `first_line_snip` from `json_to_obsidian.py`. -/
def first_line_snip (value : String) (limit : Nat := SNIPPET_LIMIT) : String :=
  let stripped := pyStripStr value
  if stripped = "" then "Untitled note"
  else
    let firstLine := pyStripStr ((pySplitLines stripped).headD "")
    if limit < firstLine.data.length then String.mk (firstLine.data.take (limit - 2)) ++ ".."
    else firstLine

/-- The boilerplate lines `tidy_lines` removes, in source order. -/
def boilerplateLines : List String :=
  ["sure thing! here’s a quick summary:",
   "sure thing! here" ++ aposS ++ "s a quick summary:",
   "let me know if you need anything else!",
   "assistance ready: i’m here to help with coding questions or features you want to implement!",
   "assistance ready: i" ++ aposS ++ "m here to help with coding questions or features you want to implement!"]

/-- Loop body of `tidy_lines`: bold-marker/curly-quote normalisation,
whitespace collapse, boilerplate and short-header filtering,
case-insensitive first-seen dedup. -/
def tidyLinesGo : List String → List String → List String
  | [], _ => []
  | line :: rest, seen =>
    let raw := pyReplace (pyReplace line "**" "") "’" aposS
    let cleaned := pyStripStr (String.mk (collapseRuns pyIsSpace ' ' raw.data))
    if cleaned = "" then tidyLinesGo rest seen
    else
      let lower := pyLower cleaned
      if boilerplateLines.contains lower then tidyLinesGo rest seen
      else if pyEndsWith lower ":" && decide ((splitWsWords cleaned).length ≤ 6) then
        tidyLinesGo rest seen
      else if pyStartsWith lower ("i" ++ aposS ++ "m here to help") then tidyLinesGo rest seen
      else if pyStartsWith lower "im here to help" then tidyLinesGo rest seen
      else if seen.contains lower then tidyLinesGo rest seen
      else cleaned :: tidyLinesGo rest (lower :: seen)

/-- `tidy_lines` from `json_to_obsidian.py` (callers always pass strings,
so the `str(line)` coercion is the identity here). -/
def tidy_lines (lines : List String) : List String := tidyLinesGo lines []

/-- The character set of `lstrip("-*•0123456789. \t")` in `bulletize`. -/
def bulletLstripChar (c : Char) : Bool :=
  c = '-' || c = '*' || c = '•' || (48 ≤ c.toNat && c.toNat ≤ 57) ||
    c = '.' || c = ' ' || c = '\t'

/-- `bulletize` from `json_to_obsidian.py`. -/
def bulletize (text : String) : List String :=
  tidy_lines ((pySplitLines text).filterMap fun line =>
    let cleaned := pyStripStr line
    if cleaned = "" then none
    else
      let cleaned2 := pyStripStr (String.mk (cleaned.data.dropWhile bulletLstripChar))
      if cleaned2 = "" then none else some cleaned2)

/-- Characters of Python's `\w` class (ASCII part: letters, digits,
underscore). -/
def isWordChar (c : Char) : Bool :=
  (97 ≤ c.toNat && c.toNat ≤ 122) || (65 ≤ c.toNat && c.toNat ≤ 90) ||
    (48 ≤ c.toNat && c.toNat ≤ 57) || c.toNat = 95

/-- `safe_filename` from `json_to_obsidian.py`. -/
def safe_filename (env : ExportEnv) (value : String) : String :=
  let normalized := (env.nfkd value).data
  let kept := normalized.filter (fun c => isWordChar c || pyIsSpace c || c = '-')
  let stripped := pyStripBy pyIsSpace kept
  let hyphenated := collapseRuns (fun c => c = '-' || pyIsSpace c) '-' stripped
  let cleaned := hyphenated.take 120
  if cleaned ≠ [] then String.mk cleaned
  else String.mk ((env.sha1hex value).data.take 10)

/-- `mkfront` from `json_to_obsidian.py`. -/
def mkfront (title : String) (tags : List String) (created : String) : String :=
  "---\n" ++ "title: " ++ title ++ "\n" ++ "tags: [" ++ joinSep ", " tags ++
    "]\n" ++ "created: " ++ created ++ "\n" ++ "---\n"

/-- Python `str.title()` (ASCII case table): uppercase a letter that
follows a non-letter, lowercase the rest. -/
def pyTitleGo : List Char → Bool → List Char
  | [], _ => []
  | c :: cs, prevAlpha =>
    let isAlpha := (97 ≤ c.toNat && c.toNat ≤ 122) || (65 ≤ c.toNat && c.toNat ≤ 90)
    (if isAlpha then (if prevAlpha then pyToLower c else pyToUpper c) else c) ::
      pyTitleGo cs isAlpha

/-- Python `str.title()`. -/
def pyTitle (s : String) : String := String.mk (pyTitleGo s.data false)

/-- One prepared raw-note record (the dict built by
`prepare_raw_entries`; `alias` is named `aliasText`). -/
structure RawEntry where
  raw_name : String
  text : String
  iso : String
  date : String
  time : String
  role : String
  snippet : String
  keywords : List String
  keywords_line : String
  quick_summary : String
  note_title : String
  file_stem : String
  link_path : String
  aliasText : String
  metadata : Option JValue

/-- Per-item body of `prepare_raw_entries` from `json_to_obsidian.py`. -/
def prep_entry (env : ExportEnv) (now : Dt) (segment : String)
    (raw : String × JValue) : RawEntry :=
  let payload := raw.2
  let text := pyStripStr (pyStrJ (jOr (jGet payload "text")
    (jOr (jGet payload "content") (JValue.str ""))))
  let dt := parse_timestamp env now (jGet payload "ts")
  let roleValue := pyLower (pyStripStr (pyStrJ (jOr (jGet payload "role") (JValue.str "assistant"))))
  let roleDisplay := if roleValue = "user" then "User" else "Assistant"
  let snippet := first_line_snip text 120
  let keywords := extract_keywords text 5
  let keywordsLine := joinSep ", " (keywords.take 4)
  let digest := String.mk ((env.sha1hex (raw.1 ++ ":" ++ dt.iso ++ ":" ++ text)).data.take 6)
  let fileStem := safe_filename env (dt.date ++ "-" ++ dt.time ++ "-" ++ roleDisplay ++ "-" ++ digest)
  { raw_name := raw.1
    text := text
    iso := dt.iso
    date := dt.date
    time := dt.time
    role := roleDisplay
    snippet := snippet
    keywords := keywords
    keywords_line := keywordsLine
    quick_summary := snippet
    note_title := dt.date ++ " " ++ dt.time ++ " " ++ roleDisplay
    file_stem := fileStem
    link_path := segment ++ "/" ++ fileStem
    aliasText := first_line_snip (roleDisplay ++ ": " ++ snippet) 72
    metadata := jGet payload "metadata" }

/-- `prepare_raw_entries` from `json_to_obsidian.py`. -/
def prepare_raw_entries (env : ExportEnv) (now : Dt) (segment : String)
    (rawItems : List (String × JValue)) : List RawEntry :=
  rawItems.map (prep_entry env now segment)

/-- The `created` value `write_summary_note` reads from the summary
payload: `summary.get("updated")`, `None` when `read_summary` yielded
the empty dict or a non-dict. -/
def summary_created_value (summary : Option JValue) : Option JValue :=
  match summary with
  | some v => jGet v "updated"
  | none => none

/-- `write_summary_note` from `json_to_obsidian.py`, modelled as the
note title together with the written file content. -/
def write_summary_note (env : ExportEnv) (now : Dt) (segment : String)
    (summary : Option JValue) (entries : List RawEntry) : String × String :=
  let displaySegment := pyTitle (pyReplace segment "-" " ")
  let summaryTitle := displaySegment ++ " Summary"
  let dt := parse_timestamp env now (summary_created_value summary)
  let front := mkfront summaryTitle ["segment/" ++ segment, "summary"] dt.iso
  let summaryText := match summary with
    | some (JValue.obj fields) => pyStrJ ((lookupField fields "summary").getD (JValue.str ""))
    | _ => ""
  let bullets := bulletize summaryText
  let rawFacts := match summary with
    | some v => jGet v "facts"
    | none => none
  let factLines := match rawFacts with
    | some (JValue.arr items) => tidy_lines (items.map pyStrJ)
    | _ => []
  let snapshotSec := "## Snapshot\n\n" ++
    (if bullets ≠ [] then strJoin (bullets.map (fun line => "- " ++ line ++ "\n"))
     else "- No summary captured yet.\n")
  let factsSec :=
    if factLines ≠ [] ∧ factLines ≠ bullets then
      "\n## Key facts\n\n" ++ strJoin (factLines.map (fun fact => "- " ++ fact ++ "\n"))
    else ""
  let entriesSec :=
    if !entries.isEmpty then
      "\n## Recent notes\n\n" ++ strJoin (entries.map (fun e =>
        "- " ++ e.date ++ " " ++ e.time ++ " • " ++ e.role ++ ": [[" ++ e.link_path ++
          "|" ++ e.aliasText ++ "]] — " ++
          (if e.keywords_line ≠ "" then "keywords: " ++ e.keywords_line else e.quick_summary) ++ "\n"))
    else ""
  let tailSec := "\n---\n" ++ "Raw notes folder: [[" ++ segment ++ "/|Open " ++
    displaySegment ++ " notes]]\n"
  (summaryTitle, front ++ snapshotSec ++ factsSec ++ entriesSec ++ tailSec)

/-- Content of one raw note, from `write_raw_notes`. -/
def raw_note_content (segment summaryTitle : String) (e : RawEntry) : String :=
  mkfront e.note_title ["segment/" ++ segment, "raw"] e.iso ++
    "**Captured:** " ++ e.date ++ " " ++ e.time ++ " UTC\n" ++
    "**Role:** " ++ e.role ++ "\n\n" ++
    "## Summary\n\n" ++
    "- Message: " ++ e.role ++ " — " ++ e.quick_summary ++ "\n" ++
    (if e.keywords ≠ [] then
      "- Keywords: " ++ joinSep ", " (e.keywords.take 6) ++ "\n"
     else "") ++
    "\n## Message\n\n" ++
    (if e.text ≠ "" then e.text ++ "\n" else "_No transcript text stored._\n") ++
    (match e.metadata with
     | some (JValue.obj fields) =>
       if !fields.isEmpty then
         "\n## Metadata\n\n" ++
           strJoin (fields.map (fun kv => "- **" ++ kv.1 ++ ":** " ++ pyStrJ kv.2 ++ "\n"))
       else ""
     | _ => "") ++
    "\n---\n" ++
    "Segment summary: [[" ++ summaryTitle ++ "]]\n" ++
    "Source file: " ++ e.raw_name ++ "\n"

/-- `write_raw_notes` from `json_to_obsidian.py`, as the list of
(vault-relative path, content) pairs written. -/
def write_raw_notes (segment summaryTitle : String) (entries : List RawEntry) :
    List (String × String) :=
  entries.map (fun e => (segment ++ "/" ++ e.file_stem ++ ".md", raw_note_content segment summaryTitle e))

/-- Lookup in the `summaries` dict of `main`/`create_index`. -/
def lookupStr : List (String × String) → String → Option String
  | [], _ => none
  | (k, v) :: rest, key => if k = key then some v else lookupStr rest key

/-- `create_index` from `json_to_obsidian.py`. -/
def create_index (segments : List String) (summaries : List (String × String)) : String :=
  "# Nova Context Index\n\n" ++
    (if segments = [] then "No segments found.\n" else "") ++
    strJoin (segments.map (fun segment =>
      let displaySegment := pyTitle (pyReplace segment "-" " ")
      "## " ++ displaySegment ++ "\n\n" ++
        (match lookupStr summaries segment with
         | some title => "- [[" ++ title ++ "]]\n\n"
         | none => "- No summary note yet.\n\n")))

/-- One segment directory of the raw archive as the exporter snapshots
it: directory name, parsed `summary.json` (`none` when missing or
unreadable, in which case `read_summary` yields `{}`), and the raw files
`collect_raw` returns (filename-sorted, parse failures already skipped). -/
structure SegmentDir where
  name : String
  summary : Option JValue
  raws : List (String × JValue)

/-- The archive snapshot `main` reads: the segment directories in the
sorted order `list_segments` yields. -/
structure Archive where
  segments : List SegmentDir

/-- `build_segment_notes` from `json_to_obsidian.py`: the summary title
plus the files written for one segment. -/
def build_segment_notes (env : ExportEnv) (now : Dt) (seg : SegmentDir) :
    String × List (String × String) :=
  let entries := prepare_raw_entries env now seg.name seg.raws
  let note := write_summary_note env now seg.name seg.summary entries
  (note.1, (note.1 ++ ".md", note.2) :: write_raw_notes seg.name note.1 entries)

/-- `main` from `json_to_obsidian.py`: the full list of
(vault-relative path, content) pairs a rebuild writes into the fresh
vault tree (the emptied vault root and the `.obsidian` folder carry no
content). -/
def vault_export_main (env : ExportEnv) (now : Dt) (archive : Archive) :
    List (String × String) :=
  let builds := archive.segments.map (fun seg => (seg.name, build_segment_notes env now seg))
  let files := (builds.map (fun b => b.2.2)).flatten
  let summaries := builds.filterMap (fun b => if b.2.1 ≠ "" then some (b.1, b.2.1) else none)
  files ++ [("Index.md", create_index (archive.segments.map SegmentDir.name) summaries)]

/-- Condition under which a `parse_timestamp` call never consults the
wall clock: the value is truthy and parses. -/
def tsResolves (env : ExportEnv) (value : Option JValue) : Bool :=
  match value with
  | some v => jTruthy v && (env.parseIso (pyReplace (pyStrJ v) "Z" "+00:00")).isSome
  | none => false

/-- The `updated` value `write_summary_note` feeds to `parse_timestamp`
for a segment. -/
def summaryCreatedArg (seg : SegmentDir) : Option JValue :=
  summary_created_value seg.summary

/-! ## Helper lemmas -/

theorem dropWhile_eq_self_of_forall {α} {p : α → Bool} {l : List α}
    (h : ∀ c ∈ l, p c = false) : l.dropWhile p = l := by
  cases l with
  | nil => rfl
  | cons c cs => simp [List.dropWhile_cons, h c (List.mem_cons_self c cs)]

theorem rdropWhile_eq_self_of_forall {α} {p : α → Bool} {l : List α}
    (h : ∀ c ∈ l, p c = false) : List.rdropWhile p l = l := by
  rw [List.rdropWhile,
    dropWhile_eq_self_of_forall (fun c hc => h c (List.mem_reverse.mp hc)),
    List.reverse_reverse]

theorem pyStripBy_eq_self {p : Char → Bool} {l : List Char}
    (h : ∀ c ∈ l, p c = false) : pyStripBy p l = l := by
  unfold pyStripBy
  rw [dropWhile_eq_self_of_forall h, rdropWhile_eq_self_of_forall h]

theorem pyStripBy_subset {p : Char → Bool} {l : List Char} :
    pyStripBy p l ⊆ l := by
  intro c hc
  have h1 : c ∈ l.dropWhile p := (List.rdropWhile_prefix p (l.dropWhile p)).subset hc
  exact (List.dropWhile_sublist p).subset h1

theorem pyStripBy_idem (p : Char → Bool) (l : List Char) :
    pyStripBy p (pyStripBy p l) = pyStripBy p l := by
  unfold pyStripBy
  have hdd : (l.dropWhile p).dropWhile p = l.dropWhile p := List.dropWhile_idempotent p l
  have hzd : (List.rdropWhile p (l.dropWhile p)).dropWhile p
      = List.rdropWhile p (l.dropWhile p) := by
    rcases hzp : List.rdropWhile p (l.dropWhile p) with _ | ⟨a, t⟩
    · rfl
    · have hpre : List.rdropWhile p (l.dropWhile p) <+: l.dropWhile p :=
        List.rdropWhile_prefix p (l.dropWhile p)
      rw [hzp] at hpre
      obtain ⟨t2, ht2⟩ := hpre
      have hda : l.dropWhile p = a :: (t ++ t2) := by rw [← ht2]; simp
      have hpa : p a = false := by
        by_contra hc
        have hpa' : p a = true := by revert hc; cases p a <;> simp
        rw [hda, List.dropWhile_cons, if_pos hpa'] at hdd
        have hlen := (List.dropWhile_sublist (l := t ++ t2) p).length_le
        have := congrArg List.length hdd
        simp only [List.length_cons] at this
        omega
      rw [List.dropWhile_cons, if_neg (by simp [hpa])]
  rw [hzd, List.rdropWhile_idempotent]

theorem pyStripStr_idem (s : String) : pyStripStr (pyStripStr s) = pyStripStr s := by
  unfold pyStripStr
  rw [show (String.mk (pyStripBy pyIsSpace s.data)).data = pyStripBy pyIsSpace s.data from rfl]
  rw [pyStripBy_idem]

theorem map_eq_self_of_forall {α} {f : α → α} :
    ∀ {l : List α}, (∀ c ∈ l, f c = c) → l.map f = l
  | [], _ => rfl
  | a :: t, h => by
    rw [List.map_cons, h a (List.mem_cons_self a t),
      map_eq_self_of_forall (fun c hc => h c (List.mem_cons_of_mem a hc))]

theorem collapseRunsGo_mem {p : Char → Bool} {r : Char} :
    ∀ {l : List Char} {b : Bool} {c : Char},
      c ∈ collapseRunsGo p r l b → c = r ∨ p c = false := by
  intro l
  induction l with
  | nil => intro b c hc; simp [collapseRunsGo] at hc
  | cons a cs ih =>
    intro b c hc
    by_cases hp : p a = true
    · rw [show collapseRunsGo p r (a :: cs) b
          = (if b then [] else [r]) ++ collapseRunsGo p r cs true from by
        simp [collapseRunsGo, hp]] at hc
      rcases List.mem_append.mp hc with h1 | h2
      · cases b with
        | true => simp at h1
        | false => simp at h1; exact Or.inl h1
      · exact ih h2
    · have hp' : p a = false := by revert hp; cases p a <;> simp
      rw [show collapseRunsGo p r (a :: cs) b = a :: collapseRunsGo p r cs false from by
        simp [collapseRunsGo, hp']] at hc
      rcases List.mem_cons.mp hc with h1 | h2
      · subst h1; exact Or.inr hp'
      · exact ih h2

theorem collapseRuns_mem {p : Char → Bool} {r : Char} {l : List Char} {c : Char}
    (h : c ∈ collapseRuns p r l) : c = r ∨ p c = false :=
  collapseRunsGo_mem h

theorem collapseRunsGo_eq_self {p : Char → Bool} {r : Char} :
    ∀ {l : List Char} {b : Bool}, (∀ c ∈ l, p c = false) → collapseRunsGo p r l b = l
  | [], _, _ => rfl
  | a :: cs, b, h => by
    have ha : p a = false := h a (List.mem_cons_self a cs)
    rw [show collapseRunsGo p r (a :: cs) b = a :: collapseRunsGo p r cs false from by
      simp [collapseRunsGo, ha]]
    rw [collapseRunsGo_eq_self (fun c hc => h c (List.mem_cons_of_mem a hc))]

theorem collapseRuns_eq_self {p : Char → Bool} {r : Char} {l : List Char}
    (h : ∀ c ∈ l, p c = false) : collapseRuns p r l = l :=
  collapseRunsGo_eq_self h

theorem isSlugChar_ranges {c : Char} (h : isSlugChar c = true) :
    (97 ≤ c.toNat ∧ c.toNat ≤ 122) ∨ (48 ≤ c.toNat ∧ c.toNat ≤ 57) ∨
      c.toNat = 95 ∨ c.toNat = 45 := by
  simp only [isSlugChar, Bool.or_eq_true, Bool.and_eq_true, decide_eq_true_eq] at h
  tauto

theorem isSlugChar_not_space {c : Char} (h : isSlugChar c = true) : pyIsSpace c = false := by
  have hr := isSlugChar_ranges h
  simp only [pyIsSpace, Bool.or_eq_false_iff, decide_eq_false_iff_not]
  omega

theorem isSlugChar_toLower {c : Char} (h : isSlugChar c = true) : pyToLower c = c := by
  have hr := isSlugChar_ranges h
  unfold pyToLower
  rw [if_neg]
  omega

theorem isSlugChar_space_map {c : Char} (h : isSlugChar c = true) :
    (if c = ' ' then '-' else c) = c := by
  rw [if_neg]
  intro he
  subst he
  exact absurd h (by decide)

theorem slugCore_chars (s : List Char) : ∀ c ∈ slugCore s, isSlugChar c = true := by
  intro c hc
  unfold slugCore at hc
  have h1 := pyStripBy_subset hc
  rcases collapseRuns_mem h1 with h2 | h2
  · subst h2; decide
  · revert h2; cases hsc : isSlugChar c <;> simp

theorem slugCore_fixed {s : List Char} (hchars : ∀ c ∈ s, isSlugChar c = true)
    (hstrip : pyStripBy (fun c => c = '-' || c = '_') s = s) : slugCore s = s := by
  unfold slugCore
  rw [pyStripBy_eq_self (fun c hc => isSlugChar_not_space (hchars c hc))]
  rw [map_eq_self_of_forall (fun c hc => isSlugChar_toLower (hchars c hc))]
  rw [map_eq_self_of_forall (fun c hc => isSlugChar_space_map (hchars c hc))]
  rw [collapseRuns_eq_self (fun c hc => by rw [hchars c hc]; rfl)]
  exact hstrip

theorem slugCore_idem (s : List Char) : slugCore (slugCore s) = slugCore s := by
  apply slugCore_fixed (slugCore_chars s)
  unfold slugCore
  exact pyStripBy_idem _ _

/-- C6: slug derivation is idempotent (`segment_slug (segment_slug x) =
segment_slug x`), never empty, and every character of the result lies in
the filesystem-safe lowercase class `[a-z0-9_-]`; inputs reducing to
nothing fall back to the fixed `"default"`. -/
theorem C6_slug_idempotent_safe (x : String) :
    segment_slug (segment_slug x) = segment_slug x
    ∧ segment_slug x ≠ ""
    ∧ ∀ c ∈ (segment_slug x).data, isSlugChar c = true := by
  by_cases h : (slugCore x.data).isEmpty
  · have hx : segment_slug x = "default" := by rw [segment_slug, if_pos h]
    refine ⟨?_, ?_, ?_⟩
    · rw [hx]; decide
    · rw [hx]; decide
    · rw [hx]; decide
  · have hx : segment_slug x = String.mk (slugCore x.data) := by rw [segment_slug, if_neg h]
    have hdata : (String.mk (slugCore x.data)).data = slugCore x.data := rfl
    refine ⟨?_, ?_, ?_⟩
    · rw [hx, segment_slug, hdata, slugCore_idem, if_neg h]
    · rw [hx]
      intro hcon
      have hnil : slugCore x.data = [] := congrArg String.data hcon
      rw [hnil] at h
      exact h rfl
    · rw [hx, hdata]
      exact slugCore_chars x.data

/-! ## C1: raw-archive filename uniqueness -/

/-- C1 counterexample: two `record_raw` calls sharing role, content, and
second-granularity timestamp build identical filenames (the digest input
`role:ts_iso:content` is identical), refuting distinctness; the digest
stand-in is irrelevant since both calls apply it to the same input. -/
theorem C1_counterexample :
    record_raw_filename (fun s => s) "20250101T120000" "user"
        "2025-01-01T12:00:00+02:00" "hello"
      = record_raw_filename (fun s => s) "20250101T120000" "user"
        "2025-01-01T12:00:00+02:00" "hello" := rfl

/-- C1 (amended): two `record_raw` calls in the same second with the
same role produce distinct filenames exactly when their truncated
digests differ — in particular whenever the contents differ without a
digest collision; with identical role, content, and timestamp the
filenames coincide instead. -/
theorem C1_filename_uniqueness (sha1hex8 : String → String)
    (tsCompact role tsIso c1 c2 : String)
    (hdig : sha1hex8 (digest_input role tsIso c1) ≠ sha1hex8 (digest_input role tsIso c2)) :
    record_raw_filename sha1hex8 tsCompact role tsIso c1
      ≠ record_raw_filename sha1hex8 tsCompact role tsIso c2 := by
  intro heq
  apply hdig
  unfold record_raw_filename at heq
  have hdat := congrArg String.data heq
  simp only [String.data_append] at hdat
  have h1 := List.append_cancel_right hdat
  have h2 := List.append_cancel_left h1
  exact String.ext h2

/-- C1 witness: a same-second pair of calls with different contents and
non-colliding digests gets distinct filenames. -/
theorem C1_filename_uniqueness_witness :
    record_raw_filename (fun s => s) "20250101T120000" "user"
        "2025-01-01T12:00:00+02:00" "hello"
      ≠ record_raw_filename (fun s => s) "20250101T120000" "user"
        "2025-01-01T12:00:00+02:00" "hullo" :=
  C1_filename_uniqueness (fun s => s) "20250101T120000" "user"
    "2025-01-01T12:00:00+02:00" "hello" "hullo" (by decide)

/-! ## C2: rolling-context length invariant -/

theorem pyTakeLast_length (n : Nat) (l : List α) :
    (pyTakeLast n l).length = min n l.length := by
  unfold pyTakeLast
  rw [List.length_drop]
  omega

theorem pyTakeLast_of_le {n : Nat} {l : List α} (h : l.length ≤ n) :
    pyTakeLast n l = l := by
  unfold pyTakeLast
  rw [show l.length - n = 0 from by omega, List.drop_zero]

theorem pyTakeLast_subset (n : Nat) (l : List α) : pyTakeLast n l ⊆ l :=
  List.drop_subset _ l

theorem appendAll_eq_map (turns : List (String × String)) :
    appendAll turns = turns.map (fun t => ⟨t.1, pyStripStr t.2⟩) := by
  have hgen : ∀ (ts : List (String × String)) (init : List Msg),
      ts.foldl (fun h t => append_message h t.1 t.2) init
        = init ++ ts.map (fun t => ⟨t.1, pyStripStr t.2⟩) := by
    intro ts
    induction ts with
    | nil => intro init; simp
    | cons t rest ih =>
      intro init
      rw [List.foldl_cons, ih, List.map_cons]
      unfold append_message
      rw [List.append_assoc]
      rfl
  unfold appendAll
  rw [hgen, List.nil_append]

theorem sanitize_messages_eq_self {msgs : List Msg}
    (h : ∀ m ∈ msgs, (m.role = "user" ∨ m.role = "assistant")
        ∧ pyStripStr m.content = m.content ∧ m.content ≠ "") :
    sanitize_messages msgs = msgs := by
  induction msgs with
  | nil => rfl
  | cons m rest ih =>
    obtain ⟨hrole, hstrip, hne⟩ := h m (List.mem_cons_self m rest)
    unfold sanitize_messages
    rw [List.filterMap_cons]
    rw [if_pos ⟨hrole, by rw [hstrip]; exact hne⟩]
    have := ih (fun m' hm' => h m' (List.mem_cons_of_mem m hm'))
    unfold sanitize_messages at this
    rw [this, hstrip]

/-- C2 counterexample: after 41 valid appends from an empty history the
in-memory rolling context has length 41, not `min 40 41`:
`append_message` never trims the in-memory list. -/
theorem C2_counterexample :
    (appendAll (List.replicate 41 ("user", "hi"))).length
      ≠ min 40 (List.replicate 41 ("user", "hi")).length := by decide

/-- C2 (amended): appending n well-formed turns from an empty history
leaves the in-memory history at length n (it is unbounded); the
persisted snapshot `save_context` writes equals the last `min 40 n`
entries of that history, i.e. the cap is enforced oldest-first on the
persisted rolling context, not in memory. -/
theorem C2_rolling_window (turns : List (String × String))
    (h : ∀ t ∈ turns, (t.1 = "user" ∨ t.1 = "assistant") ∧ pyStripStr t.2 ≠ "") :
    (appendAll turns).length = turns.length
    ∧ save_context (appendAll turns) = pyTakeLast MAX_MESSAGES (appendAll turns)
    ∧ (save_context (appendAll turns)).length = min MAX_MESSAGES turns.length := by
  have hmap := appendAll_eq_map turns
  have hsan : sanitize_messages (appendAll turns) = appendAll turns := by
    rw [hmap]
    apply sanitize_messages_eq_self
    intro m hm
    rw [List.mem_map] at hm
    obtain ⟨t, ht, hmt⟩ := hm
    obtain ⟨hrole, hne⟩ := h t ht
    subst hmt
    exact ⟨hrole, pyStripStr_idem t.2, hne⟩
  refine ⟨?_, ?_, ?_⟩
  · rw [hmap, List.length_map]
  · unfold save_context
    rw [hsan]
  · unfold save_context
    rw [hsan, pyTakeLast_length, hmap, List.length_map]

/-- C2 witness: one valid turn gives history length 1 and a persisted
snapshot equal to that single entry. -/
theorem C2_rolling_window_witness :
    (appendAll [("user", "hi")]).length = [("user", "hi")].length
    ∧ save_context (appendAll [("user", "hi")])
        = pyTakeLast MAX_MESSAGES (appendAll [("user", "hi")])
    ∧ (save_context (appendAll [("user", "hi")])).length
        = min MAX_MESSAGES [("user", "hi")].length :=
  C2_rolling_window [("user", "hi")] (by decide)

/-! ## C3 and C4: compaction protocol -/

/-- C3: with in-memory history `[{user,"hello"},{assistant,"hi"}]` and a
summarizer returning the non-empty digest `"- said hello"` on the
pending-reply-extended history, compaction collapses the conversation to
exactly one assistant turn holding that digest, and the recorded segment
summary has facts `["said hello"]`. -/
theorem C3_compaction_success (summarizer : List Msg → Option String)
    (reply lastSegment : String)
    (h : summarizer (append_message [⟨"user", "hello"⟩, ⟨"assistant", "hi"⟩] "assistant" reply)
        = some "- said hello") :
    (summarize_and_trim summarizer [⟨"user", "hello"⟩, ⟨"assistant", "hi"⟩]
        reply lastSegment).conversation = [⟨"assistant", "- said hello"⟩]
    ∧ ((summarize_and_trim summarizer [⟨"user", "hello"⟩, ⟨"assistant", "hi"⟩]
        reply lastSegment).summaryWritten).map SummaryRecord.facts = some ["said hello"] := by
  have hcore : summarize_and_trim summarizer [⟨"user", "hello"⟩, ⟨"assistant", "hi"⟩]
      reply lastSegment
      = { conversation := [⟨"assistant", "- said hello"⟩]
          summaryWritten := update_segment_summary (pyOrStr lastSegment DEFAULT_SEGMENT)
            "- said hello"
          savedSnapshot := save_context [⟨"assistant", "- said hello"⟩] } := by
    simp only [summarize_and_trim]
    rw [h]
    simp
  rw [hcore]
  refine ⟨rfl, ?_⟩
  show (update_segment_summary (pyOrStr lastSegment DEFAULT_SEGMENT) "- said hello").map
      SummaryRecord.facts = some ["said hello"]
  unfold update_segment_summary update_summary
  rw [if_neg (by decide : ¬ pyStripStr "- said hello" = "")]
  rw [show extract_facts "- said hello" = ["said hello"] from by decide]
  rfl

/-- C3 witness: a constant summarizer returning `"- said hello"`
instantiates the theorem's hypothesis. -/
theorem C3_compaction_success_witness :
    (summarize_and_trim (fun _ => some "- said hello")
        [⟨"user", "hello"⟩, ⟨"assistant", "hi"⟩] "bye!" "general").conversation
      = [⟨"assistant", "- said hello"⟩]
    ∧ ((summarize_and_trim (fun _ => some "- said hello")
        [⟨"user", "hello"⟩, ⟨"assistant", "hi"⟩] "bye!" "general").summaryWritten).map
          SummaryRecord.facts = some ["said hello"] :=
  C3_compaction_success (fun _ => some "- said hello") "bye!" "general" rfl

/-- C4: when the summarizer is unavailable (`none`) or returns the empty
digest, compaction truncates the in-memory conversation to the last 4
entries of the pre-compaction history (which includes the appended
pending reply) and writes no segment summary. -/
theorem C4_compaction_fallback (summarizer : List Msg → Option String)
    (conversation : List Msg) (reply lastSegment : String)
    (h : summarizer (append_message conversation "assistant" reply) = none
        ∨ summarizer (append_message conversation "assistant" reply) = some "") :
    (summarize_and_trim summarizer conversation reply lastSegment).conversation
        = pyTakeLast 4 (append_message conversation "assistant" reply)
    ∧ (summarize_and_trim summarizer conversation reply lastSegment).summaryWritten = none := by
  rcases h with h | h
  · simp only [summarize_and_trim]
    rw [h]
    exact ⟨rfl, rfl⟩
  · simp only [summarize_and_trim]
    rw [h]
    simp

/-- C4 witness: with an unavailable summarizer and a five-entry extended
history, the kept conversation is exactly its last four entries and no
summary is written. -/
theorem C4_compaction_fallback_witness :
    (summarize_and_trim (fun _ => none)
        [⟨"user", "a"⟩, ⟨"user", "b"⟩, ⟨"user", "c"⟩, ⟨"user", "d"⟩] "e" "general").conversation
      = [⟨"user", "b"⟩, ⟨"user", "c"⟩, ⟨"user", "d"⟩, ⟨"assistant", "e"⟩]
    ∧ (summarize_and_trim (fun _ => none)
        [⟨"user", "a"⟩, ⟨"user", "b"⟩, ⟨"user", "c"⟩, ⟨"user", "d"⟩] "e" "general").summaryWritten
      = none := by
  have h := C4_compaction_fallback (fun _ => none)
    [⟨"user", "a"⟩, ⟨"user", "b"⟩, ⟨"user", "c"⟩, ⟨"user", "d"⟩] "e" "general" (Or.inl rfl)
  exact ⟨h.1.trans (by decide), h.2⟩

/-! ## C5: classification of blank text -/

theorem pyToLower_of_space {c : Char} (h : pyIsSpace c = true) : pyToLower c = c := by
  simp only [pyIsSpace, Bool.or_eq_true, decide_eq_true_eq] at h
  unfold pyToLower
  rw [if_neg]
  omega

theorem pyInStr_of_whitespace {kw text : String}
    (h1 : ∃ c ∈ kw.data, pyIsSpace c = false)
    (h2 : ∀ c ∈ text.data, pyIsSpace c = true) :
    pyInStr kw text = false := by
  unfold pyInStr
  rw [decide_eq_false_iff_not]
  intro hinf
  obtain ⟨c, hc, hcs⟩ := h1
  have hmem : c ∈ text.data := hinf.subset hc
  rw [h2 c hmem] at hcs
  exact absurd hcs (by simp)

/-- C5 counterexample: the empty message with visual context attached by
a user turn is classified as `"screen-context"`, not the default
segment. -/
theorem C5_counterexample : infer_segment "user" "" true ≠ DEFAULT_SEGMENT := by decide

/-- C5 (amended): a message that is empty or whitespace-only matches no
keyword rule; it is classified as the default segment except when the
caller signals attached visual context on a user turn, in which case the
reserved `"screen-context"` segment is returned. -/
theorem C5_blank_classification (role content : String) (includeScreen : Bool)
    (h : ∀ c ∈ content.data, pyIsSpace c = true) :
    infer_segment role content includeScreen
      = if includeScreen && role = "user" then "screen-context" else DEFAULT_SEGMENT := by
  have hkw : ∀ rule ∈ SEGMENT_RULES, ∀ kw ∈ rule.2, ∃ c ∈ kw.data, pyIsSpace c = false := by
    decide
  have hlow : ∀ c ∈ (pyLower content).data, pyIsSpace c = true := by
    intro c hc
    rw [show (pyLower content).data = content.data.map pyToLower from rfl] at hc
    rw [List.mem_map] at hc
    obtain ⟨c0, hc0, hmap⟩ := hc
    rw [← hmap, pyToLower_of_space (h c0 hc0)]
    exact h c0 hc0
  have hfind : SEGMENT_RULES.find?
      (fun rule => rule.2.any (fun kw => pyInStr kw (pyLower content))) = none := by
    rw [List.find?_eq_none]
    intro rule hrule
    rw [Bool.not_eq_true, List.any_eq_false]
    intro kw hkwmem
    simp [pyInStr_of_whitespace (hkw rule hrule kw hkwmem) hlow]
  simp only [infer_segment]
  rw [hfind]

/-- C5 witness: whitespace-only text without visual context yields the
default segment. -/
theorem C5_blank_classification_witness :
    infer_segment "assistant" " " false
      = if false && "assistant" = "user" then "screen-context" else DEFAULT_SEGMENT :=
  C5_blank_classification "assistant" " " false (by decide)

/-! ## C9: keyword extraction -/

/-- C9: keyword extraction on the example sentence drops stop-words and
short tokens and yields exactly the five listed keywords in first-seen
order. -/
theorem C9_keyword_extraction :
    extract_keywords "The bug in the deploy script broke the meeting notes" 5
      = ["deploy", "script", "broke", "meeting", "notes"] := by decide

/-! ## C8 and C10: loading persisted context -/

theorem sanitize_entries_sound {xs : List JValue} :
    ∀ m ∈ sanitize_entries xs,
      (m.role = "user" ∨ m.role = "assistant")
      ∧ pyStripStr m.content = m.content ∧ m.content ≠ "" := by
  intro m hm
  unfold sanitize_entries at hm
  rw [List.mem_filterMap] at hm
  obtain ⟨entry, _, hsome⟩ := hm
  rcases entry with s | n | b | _ | items | fields
  case str => exact absurd hsome (by simp)
  case num => exact absurd hsome (by simp)
  case bool => exact absurd hsome (by simp)
  case null => exact absurd hsome (by simp)
  case arr => exact absurd hsome (by simp)
  case obj =>
  rcases hr : jGet (JValue.obj fields) "role" with _ | rv
  · rw [hr] at hsome; exact absurd hsome (by simp)
  rcases rv with rs | n | b | _ | items2 | fields2
  case str =>
    rcases hc : jGet (JValue.obj fields) "content" with _ | cv
    · rw [hr, hc] at hsome; exact absurd hsome (by simp)
    rcases cv with cs | n | b | _ | items3 | fields3
    case str =>
      rw [hr, hc] at hsome
      simp only at hsome
      split at hsome
      case isTrue hcond =>
        cases hsome
        exact ⟨hcond.1, pyStripStr_idem cs, hcond.2⟩
      case isFalse => exact absurd hsome (by simp)
    all_goals rw [hr, hc] at hsome; exact absurd hsome (by simp)
  all_goals rw [hr] at hsome; exact absurd hsome (by simp)

theorem loaded_list_sound (xs : List JValue) :
    (∀ m ∈ pyTakeLast MAX_MESSAGES (sanitize_entries xs),
        (m.role = "user" ∨ m.role = "assistant")
        ∧ pyStripStr m.content = m.content ∧ m.content ≠ "")
    ∧ (pyTakeLast MAX_MESSAGES (sanitize_entries xs)).length ≤ MAX_MESSAGES := by
  constructor
  · intro m hm
    exact sanitize_entries_sound m (pyTakeLast_subset _ _ hm)
  · rw [pyTakeLast_length]
    omega

theorem load_context_raised_iff (defaultFile legacyFile : FileState) :
    load_context defaultFile legacyFile = LoadOutcome.raised
      ↔ defaultFile = FileState.undecodable
        ∨ (defaultFile = FileState.missing ∧ legacyFile = FileState.undecodable) := by
  cases defaultFile with
  | missing =>
    cases legacyFile with
    | missing => simp [load_context]
    | unreadable => simp [load_context]
    | undecodable => simp [load_context]
    | invalidJson => simp [load_context]
    | json v =>
      rcases v with s | n | b | _ | items | fields <;> simp [load_context]
  | unreadable => simp [load_context]
  | undecodable => simp [load_context]
  | invalidJson => simp [load_context]
  | json v =>
    rcases v with s | n | b | _ | items | fields <;> simp [load_context]

theorem load_context_returned_cases (defaultFile legacyFile : FileState)
    (result : List Msg) (migrated : Option (List Msg))
    (h : load_context defaultFile legacyFile = LoadOutcome.returned result migrated) :
    result = [] ∨ ∃ xs, result = pyTakeLast MAX_MESSAGES (sanitize_entries xs) := by
  cases defaultFile with
  | missing =>
    cases legacyFile with
    | missing => cases h; exact Or.inl rfl
    | unreadable => cases h; exact Or.inl rfl
    | undecodable => cases h
    | invalidJson => cases h; exact Or.inl rfl
    | json v =>
      rcases v with s | n | b | _ | items | fields
      case arr => cases h; exact Or.inr ⟨items, rfl⟩
      all_goals cases h; exact Or.inl rfl
  | unreadable => cases h; exact Or.inl rfl
  | undecodable => cases h
  | invalidJson => cases h; exact Or.inl rfl
  | json v =>
    rcases v with s | n | b | _ | items | fields
    case arr => cases h; exact Or.inr ⟨items, rfl⟩
    all_goals cases h; exact Or.inl rfl

/-- C8 counterexample: an existing default-path file whose bytes are not
valid UTF-8 makes `load_context` raise `UnicodeDecodeError` — a
`ValueError` that `except (OSError, json.JSONDecodeError)` does not
catch — refuting "never raises"; and a missing default file next to a
well-formed legacy `context.json` loads non-empty, refuting "returns
the empty sequence when the input is missing". -/
theorem C8_counterexample :
    load_context FileState.undecodable FileState.missing = LoadOutcome.raised
    ∧ load_context FileState.missing (FileState.json (JValue.arr
        [JValue.obj [("role", JValue.str "user"), ("content", JValue.str "hi")]]))
      ≠ LoadOutcome.returned [] none :=
  ⟨rfl, by decide⟩

/-- C8 (amended): `load_context` raises (only `UnicodeDecodeError`)
exactly when the candidate file it reads — the default-path file, or
the legacy `context.json` when the default path is missing — exists but
is not valid UTF-8, since `except (OSError, json.JSONDecodeError)` does
not catch that error.  In every other case it returns: only well-formed
entries (role in user/assistant, non-empty trimmed string content)
truncated to the last 40; the empty sequence when the default file is
unreadable or not JSON; and the empty sequence when the default file is
missing and no usable legacy file exists — the legacy fallback being
the one exception to "missing yields empty". -/
theorem C8_load_robustness (defaultFile legacyFile : FileState) :
    (load_context defaultFile legacyFile = LoadOutcome.raised
      ↔ defaultFile = FileState.undecodable
        ∨ (defaultFile = FileState.missing ∧ legacyFile = FileState.undecodable))
    ∧ ∀ result migrated,
        load_context defaultFile legacyFile = LoadOutcome.returned result migrated →
        (∀ m ∈ result, (m.role = "user" ∨ m.role = "assistant")
            ∧ pyStripStr m.content = m.content ∧ m.content ≠ "")
        ∧ result.length ≤ MAX_MESSAGES
        ∧ ((defaultFile = FileState.unreadable ∨ defaultFile = FileState.invalidJson) →
            result = [])
        ∧ (defaultFile = FileState.missing →
            (legacyFile = FileState.missing ∨ legacyFile = FileState.unreadable
              ∨ legacyFile = FileState.invalidJson) →
            result = []) := by
  refine ⟨load_context_raised_iff defaultFile legacyFile, ?_⟩
  intro result migrated h
  refine ⟨?_, ?_, ?_, ?_⟩
  · rcases load_context_returned_cases defaultFile legacyFile result migrated h
      with h0 | ⟨xs, h0⟩
    · rw [h0]; intro m hm; exact absurd hm (by simp)
    · rw [h0]; exact (loaded_list_sound xs).1
  · rcases load_context_returned_cases defaultFile legacyFile result migrated h
      with h0 | ⟨xs, h0⟩
    · rw [h0]; simp
    · rw [h0]; exact (loaded_list_sound xs).2
  · intro hd
    rcases hd with h1 | h1 <;> subst h1 <;> (cases h; rfl)
  · intro hd hl
    subst hd
    rcases hl with h1 | h1 | h1 <;> subst h1 <;> (cases h; rfl)

/-- C8 witness: a well-formed entry loaded from an existing default file
satisfies the well-formedness guarantee, with the load equation
discharged by evaluation. -/
theorem C8_load_robustness_witness :
    (Msg.mk "user" "hi").role = "user" ∨ (Msg.mk "user" "hi").role = "assistant" := by
  have h := (C8_load_robustness (FileState.json (JValue.arr
      [JValue.obj [("role", JValue.str "user"), ("content", JValue.str " hi ")]]))
      FileState.missing).2 [⟨"user", "hi"⟩] none (by decide)
  exact (h.1 ⟨"user", "hi"⟩ (by decide)).1

theorem sanitize_messages_of_sanitized (xs : List JValue) :
    sanitize_messages (pyTakeLast MAX_MESSAGES (sanitize_entries xs))
      = pyTakeLast MAX_MESSAGES (sanitize_entries xs) := by
  apply sanitize_messages_eq_self
  intro m hm
  exact sanitize_entries_sound m (pyTakeLast_subset _ _ hm)

/-- C10: when the default rolling-context file is missing but the legacy
`context.json` parses to an array whose sanitized last-40 list is
non-empty, `load_context` returns that list and writes exactly it to the
default path (the silent one-time migration). -/
theorem C10_legacy_migration (xs : List JValue)
    (h : pyTakeLast MAX_MESSAGES (sanitize_entries xs) ≠ []) :
    load_context FileState.missing (FileState.json (JValue.arr xs))
      = LoadOutcome.returned (pyTakeLast MAX_MESSAGES (sanitize_entries xs))
          (some (pyTakeLast MAX_MESSAGES (sanitize_entries xs))) := by
  have hsave : save_context (pyTakeLast MAX_MESSAGES (sanitize_entries xs))
      = pyTakeLast MAX_MESSAGES (sanitize_entries xs) := by
    unfold save_context
    rw [sanitize_messages_of_sanitized]
    exact pyTakeLast_of_le (by rw [pyTakeLast_length]; omega)
  show LoadOutcome.returned (pyTakeLast MAX_MESSAGES (sanitize_entries xs))
      (if pyTakeLast MAX_MESSAGES (sanitize_entries xs) ≠ [] then
        some (save_context (pyTakeLast MAX_MESSAGES (sanitize_entries xs))) else none)
    = LoadOutcome.returned (pyTakeLast MAX_MESSAGES (sanitize_entries xs))
        (some (pyTakeLast MAX_MESSAGES (sanitize_entries xs)))
  rw [if_pos h, hsave]

/-- C10 witness: one well-formed legacy entry is returned and migrated
to the default path verbatim. -/
theorem C10_legacy_migration_witness :
    load_context FileState.missing (FileState.json (JValue.arr
        [JValue.obj [("role", JValue.str "user"), ("content", JValue.str "hi")]]))
      = LoadOutcome.returned
          (pyTakeLast MAX_MESSAGES (sanitize_entries
            [JValue.obj [("role", JValue.str "user"), ("content", JValue.str "hi")]]))
          (some (pyTakeLast MAX_MESSAGES (sanitize_entries
            [JValue.obj [("role", JValue.str "user"), ("content", JValue.str "hi")]]))) :=
  C10_legacy_migration
    [JValue.obj [("role", JValue.str "user"), ("content", JValue.str "hi")]] (by decide)

/-! ## C7: vault-export determinism -/

theorem parse_timestamp_stable (env : ExportEnv) (now1 now2 : Dt) {value : Option JValue}
    (h : tsResolves env value = true) :
    parse_timestamp env now1 value = parse_timestamp env now2 value := by
  rcases value with _ | v
  · exact absurd h (by simp [tsResolves])
  · unfold tsResolves at h
    rw [Bool.and_eq_true] at h
    obtain ⟨ht, hp⟩ := h
    simp only [parse_timestamp, ht, if_true]
    rcases hps : env.parseIso (pyReplace (pyStrJ v) "Z" "+00:00") with _ | dt
    · rw [hps] at hp; exact absurd hp (by simp)
    · rfl

theorem prep_entry_stable (env : ExportEnv) (now1 now2 : Dt) (segment : String)
    (raw : String × JValue) (h : tsResolves env (jGet raw.2 "ts") = true) :
    prep_entry env now1 segment raw = prep_entry env now2 segment raw := by
  simp only [prep_entry]
  rw [parse_timestamp_stable env now1 now2 h]

theorem prepare_raw_entries_stable (env : ExportEnv) (now1 now2 : Dt) (segment : String)
    {raws : List (String × JValue)}
    (h : ∀ r ∈ raws, tsResolves env (jGet r.2 "ts") = true) :
    prepare_raw_entries env now1 segment raws = prepare_raw_entries env now2 segment raws := by
  unfold prepare_raw_entries
  exact List.map_congr_left (fun r hr => prep_entry_stable env now1 now2 segment r (h r hr))

theorem write_summary_note_stable (env : ExportEnv) (now1 now2 : Dt) (segment : String)
    (summary : Option JValue) (entries : List RawEntry)
    (h : tsResolves env (summary_created_value summary) = true) :
    write_summary_note env now1 segment summary entries
      = write_summary_note env now2 segment summary entries := by
  simp only [write_summary_note]
  rw [parse_timestamp_stable env now1 now2 h]

theorem build_segment_notes_stable (env : ExportEnv) (now1 now2 : Dt) (seg : SegmentDir)
    (h1 : tsResolves env (summaryCreatedArg seg) = true)
    (h2 : ∀ r ∈ seg.raws, tsResolves env (jGet r.2 "ts") = true) :
    build_segment_notes env now1 seg = build_segment_notes env now2 seg := by
  simp only [build_segment_notes]
  rw [prepare_raw_entries_stable env now1 now2 seg.name h2]
  rw [write_summary_note_stable env now1 now2 seg.name seg.summary
    (prepare_raw_entries env now2 seg.name seg.raws) h1]

/-- C7 counterexample: a segment directory with no `summary.json` makes
`write_summary_note` stamp `created:` from the wall clock, so two
exports of the identical archive at different times produce different
file contents — the claim fails without a proviso on timestamps. -/
theorem C7_counterexample :
    vault_export_main ⟨fun s => s, fun s => s, fun _ => none⟩
        ⟨"2025-01-01T10:00:00+02:00", "2025-01-01", "10:00"⟩ ⟨[⟨"general", none, []⟩]⟩
      ≠ vault_export_main ⟨fun s => s, fun s => s, fun _ => none⟩
        ⟨"2025-01-02T10:00:00+02:00", "2025-01-02", "10:00"⟩ ⟨[⟨"general", none, []⟩]⟩ := by
  decide

/-- C7 (amended): whenever no `parse_timestamp` call falls back to the
current time — every segment has a summary whose `updated` field is
truthy and parses, and every raw entry has a truthy, parsable `ts` —
the rebuilt vault is a function of the archive alone: two runs at
different wall-clock times write the identical file set with identical
content.  A segment lacking a summary (or an entry lacking a timestamp)
gets a wall-clock `created:` field that differs across runs. -/
theorem C7_export_idempotent (env : ExportEnv) (now1 now2 : Dt) (archive : Archive)
    (h : ∀ seg ∈ archive.segments, tsResolves env (summaryCreatedArg seg) = true
        ∧ ∀ r ∈ seg.raws, tsResolves env (jGet r.2 "ts") = true) :
    vault_export_main env now1 archive = vault_export_main env now2 archive := by
  have hmap : archive.segments.map (fun seg => (seg.name, build_segment_notes env now1 seg))
      = archive.segments.map (fun seg => (seg.name, build_segment_notes env now2 seg)) :=
    List.map_congr_left (fun seg hseg => by
      rw [build_segment_notes_stable env now1 now2 seg (h seg hseg).1 (h seg hseg).2])
  simp only [vault_export_main]
  rw [hmap]

/-- C7 witness: a one-segment archive with a parsable summary timestamp
and one raw entry with a parsable `ts` exports identically at two
different wall-clock times. -/
theorem C7_export_idempotent_witness :
    vault_export_main
        ⟨fun s => s, fun s => s, fun _ => some ⟨"2025-01-01T10:00:00+02:00", "2025-01-01", "10:00"⟩⟩
        ⟨"2025-02-01T09:00:00+02:00", "2025-02-01", "09:00"⟩
        ⟨[⟨"general", some (JValue.obj [("updated", JValue.str "2025-01-01T10:00:00+02:00")]),
           [("f.json", JValue.obj [("ts", JValue.str "2025-01-01T10:00:00+02:00")])]⟩]⟩
      = vault_export_main
        ⟨fun s => s, fun s => s, fun _ => some ⟨"2025-01-01T10:00:00+02:00", "2025-01-01", "10:00"⟩⟩
        ⟨"2025-03-05T17:30:00+02:00", "2025-03-05", "17:30"⟩
        ⟨[⟨"general", some (JValue.obj [("updated", JValue.str "2025-01-01T10:00:00+02:00")]),
           [("f.json", JValue.obj [("ts", JValue.str "2025-01-01T10:00:00+02:00")])]⟩]⟩ :=
  C7_export_idempotent
    ⟨fun s => s, fun s => s, fun _ => some ⟨"2025-01-01T10:00:00+02:00", "2025-01-01", "10:00"⟩⟩
    ⟨"2025-02-01T09:00:00+02:00", "2025-02-01", "09:00"⟩
    ⟨"2025-03-05T17:30:00+02:00", "2025-03-05", "17:30"⟩
    ⟨[⟨"general", some (JValue.obj [("updated", JValue.str "2025-01-01T10:00:00+02:00")]),
       [("f.json", JValue.obj [("ts", JValue.str "2025-01-01T10:00:00+02:00")])]⟩]⟩
    (by decide)
